import Mathlib

/-!
Shallow embedding of `src/backend.rs` (egui-plotter): the plotters → egui
drawing-backend adapter. Geometry that the backend computes with `f32` is
embedded over `ℚ` where only field operations occur (the view transform, the
drawing primitives) and over `ℝ` where a square root occurs (the
background-image sizer, which normalizes a ratio vector). Host (egui) types
that the adapter merely passes through — `Color32`'s internal representation,
`Galley` — are modelled as opaque records; the host's text-layout function and
the texture-metadata lookup are environment parameters.
-/

namespace EguiPlotter

/-- Model of `egui::Pos2` (a screen/logical point). -/
structure Pos2 (α : Type) where
  x : α
  y : α
deriving DecidableEq

/-- Model of `egui::Vec2`. -/
structure Vec2 (α : Type) where
  x : α
  y : α
deriving DecidableEq

/-- Model of `egui::Rect` (min and max corner). -/
structure Rect (α : Type) where
  min : Pos2 α
  max : Pos2 α
deriving DecidableEq

def Rect.width {α : Type} [LinearOrderedField α] (r : Rect α) : α :=
  r.max.x - r.min.x

def Rect.height {α : Type} [LinearOrderedField α] (r : Rect α) : α :=
  r.max.y - r.min.y

/-- `egui::Rect::center`. -/
def Rect.center {α : Type} [LinearOrderedField α] (r : Rect α) : Pos2 α :=
  ⟨(r.min.x + r.max.x) / 2, (r.min.y + r.max.y) / 2⟩

/-- `egui::Rect::from_center_size`: `min = center - size/2`, `max = center + size/2`. -/
def Rect.from_center_size {α : Type} [LinearOrderedField α] (center : Pos2 α)
    (size : Vec2 α) : Rect α :=
  ⟨⟨center.x - size.x / 2, center.y - size.y / 2⟩,
   ⟨center.x + size.x / 2, center.y + size.y / 2⟩⟩

/-- `egui::Rect::from_min_size`. -/
def Rect.from_min_size {α : Type} [LinearOrderedField α] (min : Pos2 α)
    (size : Vec2 α) : Rect α :=
  ⟨min, ⟨min.x + size.x, min.y + size.y⟩⟩

def Rect.size {α : Type} [LinearOrderedField α] (r : Rect α) : Vec2 α :=
  ⟨r.width, r.height⟩

/-- `egui::Rect::contains`: the point is within the closed min/max box. -/
def Rect.contains {α : Type} [LinearOrderedField α] (r : Rect α) (p : Pos2 α) : Prop :=
  r.min.x ≤ p.x ∧ p.x ≤ r.max.x ∧ r.min.y ≤ p.y ∧ p.y ≤ r.max.y

/-- `egui::Rect::contains_rect`: both corners of `other` are inside `r`. -/
def Rect.contains_rect {α : Type} [LinearOrderedField α] (r other : Rect α) : Prop :=
  r.contains other.min ∧ r.contains other.max

instance {α : Type} [LinearOrderedField α] (r : Rect α) (p : Pos2 α) :
    Decidable (r.contains p) := by
  unfold Rect.contains; infer_instance

instance {α : Type} [LinearOrderedField α] (r other : Rect α) :
    Decidable (r.contains_rect other) := by
  unfold Rect.contains_rect; infer_instance

/-- `emath::Vec2::length`, idealized over the reals: `hypot x y = sqrt (x² + y²)`. -/
noncomputable def Vec2.length (v : Vec2 ℝ) : ℝ :=
  Real.sqrt (v.x ^ 2 + v.y ^ 2)

/-- `emath::Vec2::normalized`: divide by the length unless it is `≤ 0`. -/
noncomputable def Vec2.normalized (v : Vec2 ℝ) : Vec2 ℝ :=
  let len := v.length
  if len ≤ 0 then v else ⟨v.x / len, v.y / len⟩

/-- `struct EguiBackendCoord { x: f32, y: f32 }` from `backend.rs`. -/
structure EguiBackendCoord (α : Type) where
  x : α
  y : α
deriving DecidableEq

/-- `impl From<(i32, i32)> for EguiBackendCoord`. -/
def EguiBackendCoord.fromPair (value : ℤ × ℤ) : EguiBackendCoord ℚ :=
  ⟨(value.1 : ℚ), (value.2 : ℚ)⟩

/-- `impl From<Pos2> for EguiBackendCoord`. -/
def EguiBackendCoord.fromPos2 {α : Type} (value : Pos2 α) : EguiBackendCoord α :=
  ⟨value.x, value.y⟩

/-- `impl From<EguiBackendCoord> for Pos2`. -/
def EguiBackendCoord.toPos2 {α : Type} (val : EguiBackendCoord α) : Pos2 α :=
  ⟨val.x, val.y⟩

/-- `impl Add<EguiBackendCoord> for EguiBackendCoord` (also `AddAssign`). -/
def EguiBackendCoord.add {α : Type} [LinearOrderedField α]
    (self rhs : EguiBackendCoord α) : EguiBackendCoord α :=
  ⟨self.x + rhs.x, self.y + rhs.y⟩

/-- `impl Sub<EguiBackendCoord> for EguiBackendCoord` (also `SubAssign`). -/
def EguiBackendCoord.sub {α : Type} [LinearOrderedField α]
    (self rhs : EguiBackendCoord α) : EguiBackendCoord α :=
  ⟨self.x - rhs.x, self.y - rhs.y⟩

/-- `impl MulAssign<f32> for EguiBackendCoord`: scale both components. -/
def EguiBackendCoord.mulScalar {α : Type} [LinearOrderedField α]
    (self : EguiBackendCoord α) (rhs : α) : EguiBackendCoord α :=
  ⟨self.x * rhs, self.y * rhs⟩

/-- `impl Add<f32> for EguiBackendCoord`: add the scalar to both components. -/
def EguiBackendCoord.addScalar {α : Type} [LinearOrderedField α]
    (self : EguiBackendCoord α) (rhs : α) : EguiBackendCoord α :=
  ⟨self.x + rhs, self.y + rhs⟩

/-- `struct EguiBackendColor { r, g, b, a: u8 }` from `backend.rs`. -/
structure EguiBackendColor where
  r : ℕ
  g : ℕ
  b : ℕ
  a : ℕ
deriving DecidableEq

/-- `plotters_backend::BackendColor`: an `(r,g,b)` byte triple and a
normalized floating alpha, the latter embedded as `ℚ`. -/
structure BackendColor where
  rgb : ℕ × ℕ × ℕ
  alpha : ℚ
deriving DecidableEq

/-- Rust's saturating float-to-`u8` cast (`as u8`): truncate toward zero,
clamp into `0..=255`. -/
def float_as_u8 (q : ℚ) : ℕ :=
  if q < 0 then 0 else min 255 (Int.toNat ⌊q⌋)

/-- `impl From<BackendColor> for EguiBackendColor`:
`let a = (value.alpha * 255.0) as u8`, r/g/b copied. -/
def EguiBackendColor.fromBackendColor (value : BackendColor) : EguiBackendColor :=
  ⟨value.rgb.1, value.rgb.2.1, value.rgb.2.2, float_as_u8 (value.alpha * 255)⟩

/-- Model of `egui::Color32`. The host stores colors premultiplied; the
adapter only constructs them through `from_rgba_unmultiplied` and passes them
on, so the model keeps the four unmultiplied channel bytes opaquely. -/
structure Color32 where
  r : ℕ
  g : ℕ
  b : ℕ
  a : ℕ
deriving DecidableEq

def Color32.from_rgba_unmultiplied (r g b a : ℕ) : Color32 :=
  ⟨r, g, b, a⟩

def Color32.TRANSPARENT : Color32 := ⟨0, 0, 0, 0⟩

def Color32.WHITE : Color32 := ⟨255, 255, 255, 255⟩

/-- `egui::Color32::PLACEHOLDER`, an opaque sentinel color of the host. -/
def Color32.PLACEHOLDER : Color32 := ⟨64, 254, 0, 128⟩

/-- `impl From<EguiBackendColor> for Color32`:
`Color32::from_rgba_unmultiplied(r, g, b, a)`. -/
def EguiBackendColor.toColor32 (val : EguiBackendColor) : Color32 :=
  Color32.from_rgba_unmultiplied val.r val.g val.b val.a

/-- `egui::Stroke`. -/
structure Stroke where
  width : ℚ
  color : Color32
deriving DecidableEq

def Stroke.new (width : ℚ) (color : Color32) : Stroke :=
  ⟨width, color⟩

def Stroke.NONE : Stroke :=
  ⟨0, Color32.TRANSPARENT⟩

/-- `egui::FontFamily`. -/
inductive EguiFontFamily where
  | Proportional
  | Monospace
  | Name (name : String)
deriving DecidableEq

/-- `plotters_backend::FontFamily`. -/
inductive PlottersFontFamily where
  | Serif
  | SansSerif
  | Monospace
  | Name (name : String)
deriving DecidableEq

/-- The `match style.family()` arm of `draw_text` (backend.rs lines 492-498). -/
def fontFamilyMatch : PlottersFontFamily → EguiFontFamily
  | .Serif => .Proportional
  | .SansSerif => .Proportional
  | .Monospace => .Monospace
  | .Name s => .Name s

/-- `egui::FontId`. -/
structure FontId where
  size : ℚ
  family : EguiFontFamily
deriving DecidableEq

/-- `plotters_backend::text_anchor::HPos`. -/
inductive HPos where
  | Left
  | Right
  | Center
deriving DecidableEq

/-- `plotters_backend::text_anchor::VPos`. -/
inductive VPos where
  | Top
  | Center
  | Bottom
deriving DecidableEq

/-- `plotters_backend::text_anchor::Pos`. -/
structure TextPos where
  h_pos : HPos
  v_pos : VPos
deriving DecidableEq

/-- `egui::Align` (`Min`/`Center`/`Max`; `LEFT = TOP = Min`, `RIGHT = BOTTOM = Max`). -/
inductive Align where
  | Min
  | Center
  | Max
deriving DecidableEq

/-- `egui::Align2`, a horizontal and a vertical alignment. -/
structure Align2 where
  h : Align
  v : Align
deriving DecidableEq

def Align2.LEFT_TOP : Align2 := ⟨.Min, .Min⟩
def Align2.RIGHT_TOP : Align2 := ⟨.Max, .Min⟩
def Align2.RIGHT_BOTTOM : Align2 := ⟨.Max, .Max⟩
def Align2.LEFT_BOTTOM : Align2 := ⟨.Min, .Max⟩
def Align2.LEFT_CENTER : Align2 := ⟨.Min, .Center⟩
def Align2.CENTER_TOP : Align2 := ⟨.Center, .Min⟩
def Align2.RIGHT_CENTER : Align2 := ⟨.Max, .Center⟩
def Align2.CENTER_BOTTOM : Align2 := ⟨.Center, .Max⟩
def Align2.CENTER_CENTER : Align2 := ⟨.Center, .Center⟩

/-- The local `fn rotate(anchor: &mut Align2)` of `draw_text`
(backend.rs lines 525-537): one clockwise quarter-turn step of the anchor. -/
def rotate : Align2 → Align2
  | ⟨.Min, .Min⟩ => Align2.RIGHT_TOP
  | ⟨.Max, .Min⟩ => Align2.RIGHT_BOTTOM
  | ⟨.Max, .Max⟩ => Align2.LEFT_BOTTOM
  | ⟨.Min, .Max⟩ => Align2.LEFT_TOP
  | ⟨.Min, .Center⟩ => Align2.CENTER_TOP
  | ⟨.Center, .Min⟩ => Align2.RIGHT_CENTER
  | ⟨.Max, .Center⟩ => Align2.CENTER_BOTTOM
  | ⟨.Center, .Max⟩ => Align2.LEFT_CENTER
  | ⟨.Center, .Center⟩ => Align2.CENTER_CENTER

/-- `for _ in 0..rotations { rotate(&mut anchor) }` (backend.rs lines 538-540). -/
def applyRotations : ℕ → Align2 → Align2
  | 0, a => a
  | n + 1, a => applyRotations n (rotate a)

/-- `egui::Align2::anchor_rect`: translate `rect` so that the anchor point of
the result lies at `rect.min`. -/
def Align2.anchor_rect (self : Align2) (rect : Rect ℚ) : Rect ℚ :=
  let x := match self.h with
    | .Min => rect.min.x
    | .Center => rect.min.x - rect.width / 2
    | .Max => rect.min.x - rect.width
  let y := match self.v with
    | .Min => rect.min.y
    | .Center => rect.min.y - rect.height / 2
    | .Max => rect.min.y - rect.height
  Rect.from_min_size ⟨x, y⟩ rect.size

/-- `plotters_backend::FontTransform` (the text rotation). -/
inductive FontTransform where
  | none
  | rotate90
  | rotate180
  | rotate270
deriving DecidableEq

/-- `style.transform() as usize`: the enum discriminant. -/
def FontTransform.toNat : FontTransform → ℕ
  | .none => 0
  | .rotate90 => 1
  | .rotate180 => 2
  | .rotate270 => 3

/-- `std::f32::consts::FRAC_PI_2`, idealized. -/
noncomputable def FRAC_PI_2 : ℝ := Real.pi / 2

/-- Model of `egui::Galley`: the measured text extent and its emptiness, as
produced by the host's layout engine. -/
structure Galley where
  size : Vec2 ℚ
  is_empty : Bool

/-- Model of `egui::Painter`, reduced to the single query the adapter makes of
it (`layout_no_wrap`); everything the adapter *paints* is returned as a shape
list by each drawing operation instead. -/
structure Painter where
  layout_no_wrap : String → FontId → Color32 → Galley

/-- `egui::TextureId`: an opaque host texture handle. -/
inductive TextureId where
  | Managed (id : ℕ)
  | User (id : ℕ)
deriving DecidableEq

/-- Model of `egui::Ui`: its max rect, its painter, and the texture-metadata
lookup reachable through `ui.ctx().tex_manager()` (`meta(texture)` returns the
native pixel size or `None`). -/
structure Ui where
  max_rect : Rect ℚ
  painter : Painter
  tex_meta : TextureId → Option (ℕ × ℕ)

/-- `enum BgImageSize` from `backend.rs`. -/
inductive BgImageSize where
  | Fill
  | Ratio (x y : ℝ)
  | Fit
  | Original
  | Exact (w h : ℝ)

/-- The `Self::Ratio(x, y)` branch of `BgImageSize::size_from_bounds`
(backend.rs lines 196-215), over the reals. -/
noncomputable def ratioBranch (x y : ℝ) (bounds : Rect ℝ) : Rect ℝ :=
  let bounds_width := bounds.width
  let bounds_height := bounds.height
  if bounds_width = 0 ∨ bounds_height = 0 ∨ x = 0 ∨ y = 0 then bounds
  else
    let size_max := max bounds_width bounds_height
    let normalized_ratio := Vec2.normalized ⟨x, y⟩
    let img_wh_max : Vec2 ℝ := ⟨normalized_ratio.x * size_max, normalized_ratio.y * size_max⟩
    let scale := min (bounds_width / img_wh_max.x) (bounds_height / img_wh_max.y)
    let image_wh : Vec2 ℝ := ⟨img_wh_max.x * scale, img_wh_max.y * scale⟩
    Rect.from_center_size bounds.center image_wh

/-- The `Self::Original` branch of `BgImageSize::size_from_bounds`
(backend.rs lines 224-241): query the texture metadata; fall back to `bounds`
when it is unavailable. -/
noncomputable def originalBranch (bounds : Rect ℝ) (meta : TextureId → Option (ℕ × ℕ)) (texture : TextureId) : Rect ℝ :=
  match meta texture with
  | Option.none => bounds
  | Option.some wh => Rect.from_center_size bounds.center ⟨(wh.1 : ℝ), (wh.2 : ℝ)⟩

/-- `BgImageSize::size_from_bounds` (backend.rs lines 193-244). `Fit` resolves
the native size via the `Original` branch and then delegates to the `Ratio`
branch, exactly as the source recursion does. -/
noncomputable def BgImageSize.size_from_bounds (self : BgImageSize) (bounds : Rect ℝ)
    (meta : TextureId → Option (ℕ × ℕ)) (texture : TextureId) : Rect ℝ :=
  match self with
  | .Fill => bounds
  | .Ratio x y => ratioBranch x y bounds
  | .Fit =>
    let original_bounds := originalBranch bounds meta texture
    ratioBranch original_bounds.width original_bounds.height bounds
  | .Original => originalBranch bounds meta texture
  | .Exact w h => Rect.from_center_size bounds.center ⟨w, h⟩

/-- `struct EguiBackend` (backend.rs lines 249-256): the `Ui`, the offset, the
scale, the fixed bounds and the painter. -/
structure EguiBackend where
  ui : Ui
  x : ℤ
  y : ℤ
  scale : ℚ
  bounds : Rect ℚ
  painter : Painter

/-- `EguiBackend::new`: offset `(0,0)`, scale `1.0`, bounds from `ui.max_rect()`,
painter from the `Ui` (the clip rect is not modelled). -/
def EguiBackend.new (ui : Ui) : EguiBackend :=
  ⟨ui, 0, 0, 1, ui.max_rect, ui.painter⟩

/-- `EguiBackend::set_offset`. -/
def EguiBackend.set_offset (self : EguiBackend) (offset : ℤ × ℤ) : EguiBackend :=
  { self with x := offset.1, y := offset.2 }

/-- `EguiBackend::set_scale`. -/
def EguiBackend.set_scale (self : EguiBackend) (scale : ℚ) : EguiBackend :=
  { self with scale := scale }

/-- `EguiBackend::point_transform` (backend.rs lines 286-297), step for step:
`center = bounds.center - bounds.min`; `point -= center`; `point *= scale`;
`point += center`; `point += (x, y)`; `point += bounds.min`. -/
def EguiBackend.point_transform (self : EguiBackend) (point : EguiBackendCoord ℚ)
    (bounds : Rect ℚ) : EguiBackendCoord ℚ :=
  let center := (EguiBackendCoord.fromPos2 bounds.center).sub (EguiBackendCoord.fromPos2 bounds.min)
  let point := point.sub center
  let point := point.mulScalar self.scale
  let point := point.add center
  let point := point.add (EguiBackendCoord.fromPair (self.x, self.y))
  let point := point.add (EguiBackendCoord.fromPos2 bounds.min)
  point

/-- Abstract model of `std::io::Error`, the backend's declared `ErrorType`. -/
structure IoError where
  code : ℕ

/-- `plotters_backend::DrawingErrorKind` over the backend's error type. -/
inductive DrawingErrorKind where
  | DrawingError (e : IoError)
  | FontError

/-- One host-painter primitive, as emitted by the adapter: each constructor is
one `Painter` call made by `backend.rs`. -/
inductive Shape where
  | line_segment (p0 p1 : Pos2 ℚ) (stroke : Stroke)
  | rect_filled (rect : Rect ℚ) (corner_radius : ℕ) (fill : Color32)
  | rect_stroked (rect : Rect ℚ) (corner_radius : ℕ) (fill : Color32) (stroke : Stroke)
  | path_line (points : List (Pos2 ℚ)) (stroke : Stroke)
  | circle_filled (center : Pos2 ℚ) (radius : ℚ) (fill : Color32)
  | circle (center : Pos2 ℚ) (radius : ℚ) (fill : Color32) (stroke : Stroke)
  | convex_polygon (points : List (Pos2 ℚ)) (fill : Color32) (stroke : Stroke)
  | text (pos : Pos2 ℚ) (galley : Galley) (angle : ℝ) (fallback_color : Color32)

/-- The radius carried by a circle shape, if any. -/
def Shape.circleRadius : Shape → Option ℚ
  | .circle_filled _ radius _ => Option.some radius
  | .circle _ radius _ _ => Option.some radius
  | _ => Option.none

/-- The center carried by a circle shape, if any. -/
def Shape.circleCenter : Shape → Option (Pos2 ℚ)
  | .circle_filled center _ _ => Option.some center
  | .circle center _ _ _ => Option.some center
  | _ => Option.none

/-- Whether the shape is a text primitive. -/
def Shape.isText : Shape → Bool
  | .text _ _ _ _ => true
  | _ => false

/-- A drawing operation's outcome: the `Result` value the source returns and
the list of primitives it handed to the host painter. -/
def DrawResult : Type := Except DrawingErrorKind Unit × List Shape

/-- `DrawingBackend::ensure_prepared` for `EguiBackend`: `Ok(())`. -/
def EguiBackend.ensure_prepared (_self : EguiBackend) : DrawResult :=
  (Except.ok (), [])

/-- `DrawingBackend::present` for `EguiBackend`: `Ok(())`. -/
def EguiBackend.present (_self : EguiBackend) : DrawResult :=
  (Except.ok (), [])

/-- `EguiBackend::draw_pixel` (backend.rs lines 343-359). -/
def EguiBackend.draw_pixel (self : EguiBackend) (point : ℤ × ℤ)
    (color : BackendColor) : DrawResult :=
  let p0 := self.point_transform (EguiBackendCoord.fromPair point) self.bounds
  let p1 := p0.addScalar 1
  let color : Color32 := (EguiBackendColor.fromBackendColor color).toColor32
  let stroke := Stroke.new 1 color
  (Except.ok (), [Shape.line_segment p0.toPos2 p1.toPos2 stroke])

/-- `plotters_backend::BackendStyle`, reduced to its two accessors. -/
structure BackendStyle where
  color : BackendColor
  stroke_width : ℕ
deriving DecidableEq

/-- `EguiBackend::draw_line` (backend.rs lines 361-377). -/
def EguiBackend.draw_line (self : EguiBackend) (fromPt toPt : ℤ × ℤ)
    (style : BackendStyle) : DrawResult :=
  let p0 := self.point_transform (EguiBackendCoord.fromPair fromPt) self.bounds
  let p1 := self.point_transform (EguiBackendCoord.fromPair toPt) self.bounds
  let color : Color32 := (EguiBackendColor.fromBackendColor style.color).toColor32
  let stroke := Stroke.new (style.stroke_width : ℚ) color
  (Except.ok (), [Shape.line_segment p0.toPos2 p1.toPos2 stroke])

/-- `EguiBackend::draw_rect` (backend.rs lines 379-413). -/
def EguiBackend.draw_rect (self : EguiBackend) (upper_left bottom_right : ℤ × ℤ)
    (style : BackendStyle) (fill : Bool) : DrawResult :=
  let p0 := self.point_transform (EguiBackendCoord.fromPair upper_left) self.bounds
  let p1 := self.point_transform (EguiBackendCoord.fromPair bottom_right) self.bounds
  let color : Color32 := (EguiBackendColor.fromBackendColor style.color).toColor32
  if fill then
    (Except.ok (), [Shape.rect_filled ⟨p0.toPos2, p1.toPos2⟩ 0 color])
  else
    let stroke := Stroke.new (style.stroke_width : ℚ) color
    (Except.ok (), [Shape.rect_stroked ⟨p0.toPos2, p1.toPos2⟩ 0 Color32.TRANSPARENT stroke])

/-- `EguiBackend::draw_path` (backend.rs lines 415-437). -/
def EguiBackend.draw_path (self : EguiBackend) (path : List (ℤ × ℤ))
    (style : BackendStyle) : DrawResult :=
  let points := path.map fun point =>
    (self.point_transform (EguiBackendCoord.fromPair point) self.bounds).toPos2
  let color : Color32 := (EguiBackendColor.fromBackendColor style.color).toColor32
  let stroke := Stroke.new (style.stroke_width : ℚ) color
  (Except.ok (), [Shape.path_line points stroke])

/-- `EguiBackend::draw_circle` (backend.rs lines 439-456): the center goes
through `point_transform`; the radius is cast (`radius as _`) and passed on. -/
def EguiBackend.draw_circle (self : EguiBackend) (center : ℤ × ℤ) (radius : ℕ)
    (style : BackendStyle) (fill : Bool) : DrawResult :=
  let center := self.point_transform (EguiBackendCoord.fromPair center) self.bounds
  let color : Color32 := (EguiBackendColor.fromBackendColor style.color).toColor32
  if fill then
    (Except.ok (), [Shape.circle_filled center.toPos2 (radius : ℚ) color])
  else
    let stroke := Stroke.new (style.stroke_width : ℚ) color
    (Except.ok (), [Shape.circle center.toPos2 (radius : ℚ) Color32.TRANSPARENT stroke])

/-- `EguiBackend::fill_polygon` (backend.rs lines 458-481). -/
def EguiBackend.fill_polygon (self : EguiBackend) (vert : List (ℤ × ℤ))
    (style : BackendStyle) : DrawResult :=
  let points := vert.map fun point =>
    (self.point_transform (EguiBackendCoord.fromPair point) self.bounds).toPos2
  let color : Color32 := (EguiBackendColor.fromBackendColor style.color).toColor32
  let stroke := Stroke.NONE
  (Except.ok (), [Shape.convex_polygon points color stroke])

/-- `plotters_backend::BackendTextStyle`, reduced to its accessors. -/
structure BackendTextStyle where
  size : ℚ
  family : PlottersFontFamily
  color : BackendColor
  anchor : TextPos
  transform : FontTransform

/-- `EguiBackend::draw_text` (backend.rs lines 483-551), step for step:
transform the position, resolve font and color, rotate the anchor
`rotations` times, lay the text out through the painter, anchor the measured
rect, and emit a `TextShape` only when the galley is non-empty. -/
noncomputable def EguiBackend.draw_text (self : EguiBackend) (text : String)
    (style : BackendTextStyle) (pos : ℤ × ℤ) : DrawResult :=
  let pos := self.point_transform (EguiBackendCoord.fromPair pos) self.bounds
  let font_size := style.size
  let font_family := fontFamilyMatch style.family
  let font : FontId := ⟨font_size, font_family⟩
  let color : Color32 := (EguiBackendColor.fromBackendColor style.color).toColor32
  let rotations := style.transform.toNat
  let angle : ℝ := (rotations : ℝ) * FRAC_PI_2
  let anchor : Align2 :=
    ⟨match style.anchor.h_pos with
      | .Left => Align.Min
      | .Right => Align.Max
      | .Center => Align.Center,
     match style.anchor.v_pos with
      | .Top => Align.Min
      | .Center => Align.Center
      | .Bottom => Align.Max⟩
  let anchor := applyRotations rotations anchor
  let galley := self.painter.layout_no_wrap text font color
  let rect := anchor.anchor_rect (Rect.from_min_size pos.toPos2 galley.size)
  if !galley.is_empty then
    (Except.ok (), [Shape.text rect.min galley angle Color32.PLACEHOLDER])
  else
    (Except.ok (), [])

/-- Membership of a point in the boundary of a rectangle. Stated from the
spec's words ("any point P on B's boundary") to express the boundary-identity
claim; the source has no such predicate. -/
def Rect.onBoundary (r : Rect ℚ) (p : EguiBackendCoord ℚ) : Prop :=
  ((p.x = r.min.x ∨ p.x = r.max.x) ∧ r.min.y ≤ p.y ∧ p.y ≤ r.max.y) ∨
  ((p.y = r.min.y ∨ p.y = r.max.y) ∧ r.min.x ≤ p.x ∧ p.x ≤ r.max.x)

instance (r : Rect ℚ) (p : EguiBackendCoord ℚ) : Decidable (r.onBoundary p) := by
  unfold Rect.onBoundary; infer_instance

/-- Test fixture: a painter whose layout measures the empty string as empty
and any other string as a 1-row galley as wide as its character count. -/
def stringPainter : Painter :=
  ⟨fun text _ _ => ⟨⟨(text.length : ℚ), 1⟩, text == ""⟩⟩

/-- Test fixture: a backend over the given bounds, offset and scale, with
`stringPainter` and no registered textures. -/
def mkBackend (bounds : Rect ℚ) (x y : ℤ) (scale : ℚ) : EguiBackend :=
  { ui := ⟨bounds, stringPainter, fun _ => Option.none⟩, x := x, y := y,
    scale := scale, bounds := bounds, painter := stringPainter }

/-- Claim C1: for every input point `p`, bounds `B`, integer offset `(x,y)`
and scale `s`, `point_transform` returns `((p - c) * s + c) + (x,y) + B.min`
with `c = B.center - B.min`; in particular offset `(10,5)`, scale `2`, bounds
`(0,0)-(100,100)` map the point `(50,50)` to `(60,55)`. -/
theorem point_transform_formula :
    (∀ (b : EguiBackend) (p : EguiBackendCoord ℚ) (B : Rect ℚ),
      b.point_transform p B =
        ⟨((p.x - (B.center.x - B.min.x)) * b.scale + (B.center.x - B.min.x)) + (b.x : ℚ) + B.min.x,
         ((p.y - (B.center.y - B.min.y)) * b.scale + (B.center.y - B.min.y)) + (b.y : ℚ) + B.min.y⟩) ∧
    (mkBackend ⟨⟨0, 0⟩, ⟨100, 100⟩⟩ 10 5 2).point_transform
        (EguiBackendCoord.fromPair (50, 50)) ⟨⟨0, 0⟩, ⟨100, 100⟩⟩ = ⟨60, 55⟩ := by
  constructor
  · intro b p B
    simp only [EguiBackend.point_transform, EguiBackendCoord.sub, EguiBackendCoord.add,
      EguiBackendCoord.mulScalar, EguiBackendCoord.fromPos2, EguiBackendCoord.fromPair,
      Rect.center, EguiBackendCoord.mk.injEq]
  · norm_num [EguiBackend.point_transform, EguiBackendCoord.sub, EguiBackendCoord.add,
      EguiBackendCoord.mulScalar, EguiBackendCoord.fromPos2, EguiBackendCoord.fromPair,
      Rect.center, mkBackend]

/-- Claim C2, counterexample: with offset `(0,0)` and scale `1.0`, the corner
`(10,10)` of the bounds `(10,10)-(20,20)` — a boundary point — is mapped to
`(20,20)`, not to itself: the transform is not the identity. -/
theorem point_transform_boundary_not_identity :
    Rect.onBoundary ⟨⟨10, 10⟩, ⟨20, 20⟩⟩ ⟨10, 10⟩ ∧
    (mkBackend ⟨⟨10, 10⟩, ⟨20, 20⟩⟩ 0 0 1).point_transform ⟨10, 10⟩ ⟨⟨10, 10⟩, ⟨20, 20⟩⟩ =
      ⟨20, 20⟩ ∧
    (⟨20, 20⟩ : EguiBackendCoord ℚ) ≠ ⟨10, 10⟩ := by
  refine ⟨Or.inl ⟨Or.inl rfl, by norm_num, by norm_num⟩, ?_, by simp⟩
  norm_num [EguiBackend.point_transform, EguiBackendCoord.sub, EguiBackendCoord.add,
    EguiBackendCoord.mulScalar, EguiBackendCoord.fromPos2, EguiBackendCoord.fromPair,
    Rect.center, mkBackend]

/-- Claim C2, amended: with offset `(0,0)` and scale `1.0` the transform maps
every boundary point `P` of `B` to `P + B.min` — the identity translated by
`B.min`, hence the identity exactly on bounds anchored at the origin. -/
theorem point_transform_boundary_translation (b : EguiBackend) (B : Rect ℚ)
    (P : EguiBackendCoord ℚ) (hx : b.x = 0) (hy : b.y = 0) (hs : b.scale = 1)
    (_hP : B.onBoundary P) :
    b.point_transform P B = P.add (EguiBackendCoord.fromPos2 B.min) := by
  simp only [EguiBackend.point_transform, EguiBackendCoord.sub, EguiBackendCoord.add,
    EguiBackendCoord.mulScalar, EguiBackendCoord.fromPos2, EguiBackendCoord.fromPair,
    Rect.center, hx, hy, hs, EguiBackendCoord.mk.injEq]
  constructor <;> push_cast <;> ring

/-- Witness for the amended C2 at the concrete boundary point `(10,10)` of
`(10,10)-(20,20)`. -/
theorem point_transform_boundary_translation_witness :
    (mkBackend ⟨⟨10, 10⟩, ⟨20, 20⟩⟩ 0 0 1).point_transform ⟨10, 10⟩ ⟨⟨10, 10⟩, ⟨20, 20⟩⟩ =
      EguiBackendCoord.add ⟨10, 10⟩ (EguiBackendCoord.fromPos2 ⟨10, 10⟩) :=
  point_transform_boundary_translation (mkBackend ⟨⟨10, 10⟩, ⟨20, 20⟩⟩ 0 0 1)
    ⟨⟨10, 10⟩, ⟨20, 20⟩⟩ ⟨10, 10⟩ rfl rfl rfl
    (Or.inl ⟨Or.inl rfl, by norm_num, by norm_num⟩)

/-- Claim C3: the anchor-rotation step returns every one of the nine anchors
to itself after four applications, and the fully-centered anchor is a fixed
point of the step for every rotation count; `applyRotations` is the source's
loop applying the step `rotation_count` times in sequence. -/
theorem anchor_rotation_cycle :
    (∀ a : Align2, applyRotations 4 a = a) ∧
    (∀ n : ℕ, applyRotations n Align2.CENTER_CENTER = Align2.CENTER_CENTER) := by
  constructor
  · rintro ⟨h, v⟩
    cases h <;> cases v <;> rfl
  · intro n
    induction n with
    | zero => rfl
    | succ k ih => exact ih

/-- Claim C5: under a normalized alpha (`0 ≤ alpha ≤ 1`) the converted alpha
byte is the truncation of `alpha * 255` (floor, since the product is
non-negative), and the red, green and blue bytes pass through unchanged. -/
theorem color_conversion_truncates (c : BackendColor) (h0 : 0 ≤ c.alpha)
    (h1 : c.alpha ≤ 1) :
    EguiBackendColor.fromBackendColor c =
      ⟨c.rgb.1, c.rgb.2.1, c.rgb.2.2, Int.toNat ⌊c.alpha * 255⌋⟩ := by
  unfold EguiBackendColor.fromBackendColor float_as_u8
  have hnn : (0 : ℚ) ≤ c.alpha * 255 := by positivity
  rw [if_neg (not_lt.mpr hnn)]
  have hle : ⌊c.alpha * 255⌋ ≤ 255 := by
    have : c.alpha * 255 ≤ 255 := by nlinarith
    calc ⌊c.alpha * 255⌋ ≤ ⌊(255 : ℚ)⌋ := Int.floor_le_floor this
    _ = 255 := by norm_num
  have : Int.toNat ⌊c.alpha * 255⌋ ≤ 255 := by omega
  simp [min_eq_right this]

/-- Witness for C5 at the boundary input `alpha = 0.999`: the alpha byte is
`254`, not `255`, and `rgb = (1,2,3)` is unchanged. -/
theorem color_conversion_truncates_witness :
    EguiBackendColor.fromBackendColor ⟨(1, 2, 3), 999 / 1000⟩ = ⟨1, 2, 3, 254⟩ := by
  rw [color_conversion_truncates ⟨(1, 2, 3), 999 / 1000⟩ (by norm_num) (by norm_num)]
  norm_num
  decide

/-- Claim C6: for every circle draw — any backend state (hence any view
scale), any style, filled or stroked — the radius handed to the host painter
is the logical radius unchanged, while the center goes through
`point_transform`; the call returns success. -/
theorem draw_circle_radius_unscaled :
    ∀ (b : EguiBackend) (center : ℤ × ℤ) (radius : ℕ) (style : BackendStyle)
      (fill : Bool),
      (b.draw_circle center radius style fill).2.map Shape.circleRadius =
        [Option.some (radius : ℚ)] ∧
      (b.draw_circle center radius style fill).2.map Shape.circleCenter =
        [Option.some (b.point_transform (EguiBackendCoord.fromPair center) b.bounds).toPos2] ∧
      (b.draw_circle center radius style fill).1 = Except.ok () := by
  intro b center radius style fill
  cases fill <;>
    simp [EguiBackend.draw_circle, Shape.circleRadius, Shape.circleCenter]

/-- Claim C7: when the measured galley for the text is empty (in particular
for the empty string), `draw_text` emits no primitive at all and still
returns success. -/
theorem draw_text_empty_galley (b : EguiBackend) (text : String)
    (style : BackendTextStyle) (pos : ℤ × ℤ)
    (h : (b.painter.layout_no_wrap text ⟨style.size, fontFamilyMatch style.family⟩
        (EguiBackendColor.fromBackendColor style.color).toColor32).is_empty = true) :
    b.draw_text text style pos = (Except.ok (), []) := by
  unfold EguiBackend.draw_text
  simp [h]

/-- Witness for C7: drawing the empty string emits zero primitives. -/
theorem draw_text_empty_galley_witness :
    (mkBackend ⟨⟨0, 0⟩, ⟨100, 100⟩⟩ 0 0 1).draw_text ""
      ⟨12, .Serif, ⟨(0, 0, 0), 1⟩, ⟨.Left, .Top⟩, .none⟩ (5, 5) =
      (Except.ok (), []) :=
  draw_text_empty_galley (mkBackend ⟨⟨0, 0⟩, ⟨100, 100⟩⟩ 0 0 1) ""
    ⟨12, .Serif, ⟨(0, 0, 0), 1⟩, ⟨.Left, .Top⟩, .none⟩ (5, 5) rfl

/-- Claim C8: `Original` sizing returns the input bounds unchanged when the
texture metadata lookup yields nothing, and a rectangle of the native size
centered at the bounds' center when it yields `(w, h)`. -/
theorem original_sizing_fallback (bounds : Rect ℝ)
    (meta : TextureId → Option (ℕ × ℕ)) (texture : TextureId) :
    (meta texture = Option.none →
      BgImageSize.size_from_bounds .Original bounds meta texture = bounds) ∧
    (∀ w h : ℕ, meta texture = Option.some (w, h) →
      BgImageSize.size_from_bounds .Original bounds meta texture =
        Rect.from_center_size bounds.center ⟨(w : ℝ), (h : ℝ)⟩) := by
  constructor
  · intro h
    simp [BgImageSize.size_from_bounds, originalBranch, h]
  · intro w h hm
    simp [BgImageSize.size_from_bounds, originalBranch, hm]

/-- Claim C9: every drawing-backend operation returns the success value on
every input; no error value is ever returned. -/
theorem all_operations_return_ok :
    (∀ b : EguiBackend, b.ensure_prepared.1 = Except.ok ()) ∧
    (∀ b : EguiBackend, b.present.1 = Except.ok ()) ∧
    (∀ (b : EguiBackend) (p : ℤ × ℤ) (c : BackendColor),
      (b.draw_pixel p c).1 = Except.ok ()) ∧
    (∀ (b : EguiBackend) (p q : ℤ × ℤ) (s : BackendStyle),
      (b.draw_line p q s).1 = Except.ok ()) ∧
    (∀ (b : EguiBackend) (p q : ℤ × ℤ) (s : BackendStyle) (fill : Bool),
      (b.draw_rect p q s fill).1 = Except.ok ()) ∧
    (∀ (b : EguiBackend) (path : List (ℤ × ℤ)) (s : BackendStyle),
      (b.draw_path path s).1 = Except.ok ()) ∧
    (∀ (b : EguiBackend) (c : ℤ × ℤ) (r : ℕ) (s : BackendStyle) (fill : Bool),
      (b.draw_circle c r s fill).1 = Except.ok ()) ∧
    (∀ (b : EguiBackend) (v : List (ℤ × ℤ)) (s : BackendStyle),
      (b.fill_polygon v s).1 = Except.ok ()) ∧
    (∀ (b : EguiBackend) (t : String) (s : BackendTextStyle) (p : ℤ × ℤ),
      (b.draw_text t s p).1 = Except.ok ()) := by
  refine ⟨fun b => rfl, fun b => rfl, fun b p c => rfl, fun b p q s => rfl,
    fun b p q s fill => ?_, fun b path s => rfl, fun b c r s fill => ?_,
    fun b v s => rfl, fun b t s p => ?_⟩
  · cases fill <;> rfl
  · cases fill <;> rfl
  · cases hgal : (b.painter.layout_no_wrap t ⟨s.size, fontFamilyMatch s.family⟩
        (EguiBackendColor.fromBackendColor s.color).toColor32).is_empty <;>
      simp [EguiBackend.draw_text, hgal]

theorem from_center_size_width (c : Pos2 ℝ) (s : Vec2 ℝ) :
    (Rect.from_center_size c s).width = s.x := by
  simp only [Rect.from_center_size, Rect.width]
  ring

theorem from_center_size_height (c : Pos2 ℝ) (s : Vec2 ℝ) :
    (Rect.from_center_size c s).height = s.y := by
  simp only [Rect.from_center_size, Rect.height]
  ring

theorem from_center_size_center (c : Pos2 ℝ) (s : Vec2 ℝ) :
    (Rect.from_center_size c s).center = c := by
  obtain ⟨cx, cy⟩ := c
  simp only [Rect.from_center_size, Rect.center, Pos2.mk.injEq]
  constructor <;> ring

/-- Normal form of the `Ratio` branch for positive inputs: the square root
introduced by `normalized` cancels exactly, leaving the size
`(x, y) * min (width/x, height/y)` centered at the bounds' center. -/
theorem ratioBranch_pos (bounds : Rect ℝ) (x y : ℝ) (hbw : 0 < bounds.width)
    (hbh : 0 < bounds.height) (hx : 0 < x) (hy : 0 < y) :
    ratioBranch x y bounds =
      Rect.from_center_size bounds.center
        ⟨x * min (bounds.width / x) (bounds.height / y),
         y * min (bounds.width / x) (bounds.height / y)⟩ := by
  have hxy : (0 : ℝ) < x ^ 2 + y ^ 2 := by positivity
  have hL : 0 < Real.sqrt (x ^ 2 + y ^ 2) := Real.sqrt_pos.mpr hxy
  have hL0 : Real.sqrt (x ^ 2 + y ^ 2) ≠ 0 := ne_of_gt hL
  have hsm : 0 < max bounds.width bounds.height := lt_max_iff.mpr (Or.inl hbw)
  have hsm0 : max bounds.width bounds.height ≠ 0 := ne_of_gt hsm
  simp only [ratioBranch, Vec2.normalized, Vec2.length]
  rw [if_neg (by push_neg; exact ⟨ne_of_gt hbw, ne_of_gt hbh, ne_of_gt hx, ne_of_gt hy⟩)]
  rw [if_neg (not_le.mpr hL)]
  dsimp only
  have h1 : bounds.width / (x / Real.sqrt (x ^ 2 + y ^ 2) * max bounds.width bounds.height) =
      bounds.width / x * (Real.sqrt (x ^ 2 + y ^ 2) / max bounds.width bounds.height) := by
    field_simp
  have h2 : bounds.height / (y / Real.sqrt (x ^ 2 + y ^ 2) * max bounds.width bounds.height) =
      bounds.height / y * (Real.sqrt (x ^ 2 + y ^ 2) / max bounds.width bounds.height) := by
    field_simp
  have hc : (0 : ℝ) ≤ Real.sqrt (x ^ 2 + y ^ 2) / max bounds.width bounds.height := by positivity
  rw [h1, h2, ← min_mul_of_nonneg _ _ hc]
  congr 1
  simp only [Vec2.mk.injEq]
  constructor <;> (field_simp; ring)

theorem ratioBranch_properties (bounds : Rect ℝ) (x y : ℝ) (hbw : 0 < bounds.width)
    (hbh : 0 < bounds.height) (hx : 0 < x) (hy : 0 < y) :
    (ratioBranch x y bounds).width * y = (ratioBranch x y bounds).height * x ∧
    bounds.contains_rect (ratioBranch x y bounds) ∧
    (ratioBranch x y bounds).center = bounds.center := by
  rw [ratioBranch_pos bounds x y hbw hbh hx hy]
  have hm0 : 0 < min (bounds.width / x) (bounds.height / y) :=
    lt_min (div_pos hbw hx) (div_pos hbh hy)
  have hxm : x * min (bounds.width / x) (bounds.height / y) ≤ bounds.width := by
    calc x * min (bounds.width / x) (bounds.height / y) ≤ x * (bounds.width / x) :=
          mul_le_mul_of_nonneg_left (min_le_left _ _) hx.le
    _ = bounds.width := by field_simp
  have hym : y * min (bounds.width / x) (bounds.height / y) ≤ bounds.height := by
    calc y * min (bounds.width / x) (bounds.height / y) ≤ y * (bounds.height / y) :=
          mul_le_mul_of_nonneg_left (min_le_right _ _) hy.le
    _ = bounds.height := by field_simp
  have hxm0 : 0 < x * min (bounds.width / x) (bounds.height / y) := mul_pos hx hm0
  have hym0 : 0 < y * min (bounds.width / x) (bounds.height / y) := mul_pos hy hm0
  refine ⟨?_, ?_, from_center_size_center _ _⟩
  · rw [from_center_size_width, from_center_size_height]
    ring
  · simp only [Rect.contains_rect, Rect.contains, Rect.from_center_size, Rect.center,
      Rect.width, Rect.height] at *
    refine ⟨⟨?_, ?_, ?_, ?_⟩, ?_, ?_, ?_, ?_⟩ <;> linarith

/-- `Ratio(-1, 10)` on the bounds `(0,0)-(100,100)` evaluates to the inverted
rectangle `(0,550)-(100,-450)`: the negative component makes the computed
scale negative. -/
theorem ratioBranch_neg_example :
    ratioBranch (-1) 10 ⟨⟨0, 0⟩, ⟨100, 100⟩⟩ = ⟨⟨0, 550⟩, ⟨100, -450⟩⟩ := by
  have h101 : ((-1 : ℝ)) ^ 2 + (10 : ℝ) ^ 2 = 101 := by norm_num
  have hL : (0 : ℝ) < Real.sqrt 101 := Real.sqrt_pos.mpr (by norm_num)
  have hL0 : Real.sqrt 101 ≠ 0 := ne_of_gt hL
  simp only [ratioBranch, Vec2.normalized, Vec2.length]
  rw [if_neg (by norm_num [Rect.width, Rect.height])]
  rw [h101, if_neg (not_le.mpr hL)]
  dsimp only
  have e1 : (Rect.width (⟨⟨0, 0⟩, ⟨100, 100⟩⟩ : Rect ℝ)) = 100 := by
    norm_num [Rect.width]
  have e2 : (Rect.height (⟨⟨0, 0⟩, ⟨100, 100⟩⟩ : Rect ℝ)) = 100 := by
    norm_num [Rect.height]
  rw [e1, e2, max_self]
  have e3 : (100 : ℝ) / (-1 / Real.sqrt 101 * 100) = -Real.sqrt 101 := by
    field_simp
    ring
  have e4 : (100 : ℝ) / (10 / Real.sqrt 101 * 100) = Real.sqrt 101 / 10 := by
    field_simp
    ring
  rw [e3, e4]
  have e5 : min (-Real.sqrt 101) (Real.sqrt 101 / 10) = -Real.sqrt 101 :=
    min_eq_left (by nlinarith)
  rw [e5]
  have e6 : (-1 : ℝ) / Real.sqrt 101 * 100 * -Real.sqrt 101 = 100 := by
    field_simp
  have e7 : (10 : ℝ) / Real.sqrt 101 * 100 * -Real.sqrt 101 = -1000 := by
    field_simp
    nlinarith [Real.sq_sqrt (by norm_num : (101 : ℝ) ≥ 0)]
  rw [e6, e7]
  norm_num [Rect.from_center_size, Rect.center, Rect.mk.injEq, Pos2.mk.injEq]

/-- Claim C4, counterexample: the bounds `(0,0)-(100,100)` have nonzero width
and height and `Ratio(-1, 10)` has nonzero components, yet the computed
rectangle is not contained in the bounds. -/
theorem ratio_sizing_counterexample :
    (Rect.width (⟨⟨0, 0⟩, ⟨100, 100⟩⟩ : Rect ℝ) ≠ 0) ∧
    (Rect.height (⟨⟨0, 0⟩, ⟨100, 100⟩⟩ : Rect ℝ) ≠ 0) ∧
    ((-1 : ℝ) ≠ 0) ∧ ((10 : ℝ) ≠ 0) ∧
    ¬ (⟨⟨0, 0⟩, ⟨100, 100⟩⟩ : Rect ℝ).contains_rect
        ((BgImageSize.Ratio (-1) 10).size_from_bounds ⟨⟨0, 0⟩, ⟨100, 100⟩⟩
          (fun _ => Option.none) (TextureId.Managed 0)) := by
  refine ⟨by norm_num [Rect.width], by norm_num [Rect.height], by norm_num, by norm_num, ?_⟩
  simp only [BgImageSize.size_from_bounds]
  rw [ratioBranch_neg_example]
  norm_num [Rect.contains_rect, Rect.contains]

/-- Claim C4, amended: for bounds of positive width and height and a
`Ratio(w,h)` policy with `w > 0` and `h > 0`, the computed rectangle keeps the
ratio `w:h` exactly, is contained in the bounds and is centered at the bounds'
center; with zero bounds dimensions or zero ratio components the bounds are
returned unchanged. -/
theorem ratio_sizing_amended :
    (∀ (bounds : Rect ℝ) (x y : ℝ) (meta : TextureId → Option (ℕ × ℕ))
        (texture : TextureId), 0 < bounds.width → 0 < bounds.height →
        0 < x → 0 < y →
      ((BgImageSize.Ratio x y).size_from_bounds bounds meta texture).width * y =
        ((BgImageSize.Ratio x y).size_from_bounds bounds meta texture).height * x ∧
      bounds.contains_rect ((BgImageSize.Ratio x y).size_from_bounds bounds meta texture) ∧
      ((BgImageSize.Ratio x y).size_from_bounds bounds meta texture).center = bounds.center) ∧
    (∀ (bounds : Rect ℝ) (x y : ℝ) (meta : TextureId → Option (ℕ × ℕ))
        (texture : TextureId),
      bounds.width = 0 ∨ bounds.height = 0 ∨ x = 0 ∨ y = 0 →
        (BgImageSize.Ratio x y).size_from_bounds bounds meta texture = bounds) := by
  constructor
  · intro bounds x y meta texture hbw hbh hx hy
    simp only [BgImageSize.size_from_bounds]
    exact ratioBranch_properties bounds x y hbw hbh hx hy
  · intro bounds x y meta texture h
    simp only [BgImageSize.size_from_bounds, ratioBranch]
    exact if_pos h

/-- Witness for the amended C4 at the spec's scenario: bounds `(0,0)-(200,100)`
with `Ratio(16, 9)` yields a rectangle of exact ratio 16:9, contained in the
bounds and centered at `(100, 50)`. -/
theorem ratio_sizing_amended_witness :
    ((BgImageSize.Ratio 16 9).size_from_bounds ⟨⟨0, 0⟩, ⟨200, 100⟩⟩
        (fun _ => Option.none) (TextureId.Managed 0)).width * 9 =
      ((BgImageSize.Ratio 16 9).size_from_bounds ⟨⟨0, 0⟩, ⟨200, 100⟩⟩
        (fun _ => Option.none) (TextureId.Managed 0)).height * 16 ∧
    (⟨⟨0, 0⟩, ⟨200, 100⟩⟩ : Rect ℝ).contains_rect
      ((BgImageSize.Ratio 16 9).size_from_bounds ⟨⟨0, 0⟩, ⟨200, 100⟩⟩
        (fun _ => Option.none) (TextureId.Managed 0)) ∧
    ((BgImageSize.Ratio 16 9).size_from_bounds ⟨⟨0, 0⟩, ⟨200, 100⟩⟩
        (fun _ => Option.none) (TextureId.Managed 0)).center =
      (⟨⟨0, 0⟩, ⟨200, 100⟩⟩ : Rect ℝ).center :=
  ratio_sizing_amended.1 ⟨⟨0, 0⟩, ⟨200, 100⟩⟩ 16 9 (fun _ => Option.none)
    (TextureId.Managed 0) (by norm_num [Rect.width]) (by norm_num [Rect.height])
    (by norm_num) (by norm_num)

/-- Claim C10: `draw_text` maps both `Serif` and `SansSerif` to the host's
`Proportional` family (so they resolve identically), `Monospace` to
`Monospace`, and a named family to the host named family of the same name. -/
theorem font_family_mapping :
    fontFamilyMatch .Serif = .Proportional ∧
    fontFamilyMatch .SansSerif = .Proportional ∧
    fontFamilyMatch .Serif = fontFamilyMatch .SansSerif ∧
    fontFamilyMatch .Monospace = .Monospace ∧
    (∀ s : String, fontFamilyMatch (.Name s) = .Name s) :=
  ⟨rfl, rfl, rfl, rfl, fun _ => rfl⟩

end EguiPlotter
